import Mathlib

/-!
Verification development for the webOS-processMGR backend core:
the host-process service (`backend/app/hproc/service.py`), the PID
validation in its routes (`backend/app/hproc/routes.py`) and the
WebSocket connection manager (`backend/app/ws/manager.py`).

Python dictionaries are modelled as association lists with in-place
update semantics (`dictSet` updates the first entry holding the key and
otherwise appends, exactly like `d[k] = v`; `dictDel` removes the
entries holding the key, like `del d[k]` on a dict whose keys are
unique).  Python sets of topic strings are modelled as lists, with
`List.insert` for `set.add` and `List.filter` for `set.discard`.
-/

/-- Dictionary lookup: returns the value stored under `key`, scanning the
entries in order (a Python dict holds each key at most once). -/
def dictGet {κ α : Type} [DecidableEq κ] (key : κ) : List (κ × α) → Option α
  | [] => none
  | (k, v) :: rest => if k = key then some v else dictGet key rest

/-- Dictionary assignment `d[key] = v`: replaces the value of the first
entry holding `key` in place, or appends a new entry at the end. -/
def dictSet {κ α : Type} [DecidableEq κ] (key : κ) (v : α) : List (κ × α) → List (κ × α)
  | [] => [(key, v)]
  | (k, w) :: rest => if k = key then (key, v) :: rest else (k, w) :: dictSet key v rest

/-- Dictionary deletion `del d[key]`: removes the entries holding `key`. -/
def dictDel {κ α : Type} [DecidableEq κ] (key : κ) (l : List (κ × α)) : List (κ × α) :=
  l.filter (fun e => e.1 ≠ key)

/-! Model of `backend/app/ws/topics.py`. -/

/-- System metrics topic (`METRICS_HOST = "metrics.host"`). -/
def METRICS_HOST : String := "metrics.host"

/-! Model of the WebSocket `ConnectionManager` of `backend/app/ws/manager.py`.
Connections (WebSocket objects) are opaque handles modelled as naturals,
user ids and topics are strings. -/

/-- State of the `ConnectionManager`: `active_connections` maps a user id
to the list of that user's live connections, `subscriptions` maps a
connection to the set of topics it subscribed to. -/
structure ConnectionManager where
  active_connections : List (String × List Nat)
  subscriptions : List (Nat × List String)
deriving DecidableEq

namespace ConnectionManager

/-- Model of `ConnectionManager.connect`: ensure the user's key exists,
append the connection to the user's list, and reset the connection's
subscription set to empty.  The guarded key-initialisation followed by
the in-place append of the source is written as one dictionary update. -/
def connect (ws : Nat) (user_id : String) (st : ConnectionManager) : ConnectionManager :=
  { active_connections :=
      dictSet user_id ((dictGet user_id st.active_connections).getD [] ++ [ws])
        st.active_connections,
    subscriptions := dictSet ws [] st.subscriptions }

/-- First half of `ConnectionManager.disconnect`, acting on
`active_connections`: if the user's key exists, remove the first
occurrence of the connection from the user's list (only when present,
mirroring the `if websocket in ...` guard) and delete the user's key
when the list has become empty. -/
def disconnectActive (ws : Nat) (user_id : String) (ac : List (String × List Nat)) :
    List (String × List Nat) :=
  match dictGet user_id ac with
  | none => ac
  | some lst =>
    let lst' := if ws ∈ lst then lst.erase ws else lst
    if lst' = [] then dictDel user_id ac
    else dictSet user_id lst' ac

/-- Second half of `ConnectionManager.disconnect`, acting on
`subscriptions`: delete the connection's subscription entry when present. -/
def disconnectSubs (ws : Nat) (subs : List (Nat × List String)) : List (Nat × List String) :=
  if (dictGet ws subs).isSome then dictDel ws subs else subs

/-- Model of `ConnectionManager.disconnect`: the two halves act on the
two independent maps of the state. -/
def disconnect (ws : Nat) (user_id : String) (st : ConnectionManager) : ConnectionManager :=
  { active_connections := disconnectActive ws user_id st.active_connections,
    subscriptions := disconnectSubs ws st.subscriptions }

/-- Model of `ConnectionManager.subscribe`: add the topic to the
connection's set if the connection is registered, otherwise do nothing. -/
def subscribe (ws : Nat) (topic : String) (st : ConnectionManager) : ConnectionManager :=
  match dictGet ws st.subscriptions with
  | none => st
  | some tps => { st with subscriptions := dictSet ws (tps.insert topic) st.subscriptions }

/-- Model of `ConnectionManager.unsubscribe`: discard the topic from the
connection's set if the connection is registered, otherwise do nothing. -/
def unsubscribe (ws : Nat) (topic : String) (st : ConnectionManager) : ConnectionManager :=
  match dictGet ws st.subscriptions with
  | none => st
  | some tps =>
    { st with subscriptions := dictSet ws (tps.filter (fun t => t ≠ topic)) st.subscriptions }

/-- Model of `ConnectionManager.broadcast_to_topic`: iterate the
subscription entries in dictionary order and, for each connection
subscribed to the topic, attempt `send_json`; `fail` tells which sends
raise, and a raise is absorbed (`except Exception: pass`) so iteration
continues.  The result records every attempted send as a pair of the
connection and whether its send succeeded. -/
def broadcastAttempts (topic : String) (fail : Nat → Bool) :
    List (Nat × List String) → List (Nat × Bool)
  | [] => []
  | (ws, tps) :: rest =>
    if topic ∈ tps then (ws, !fail ws) :: broadcastAttempts topic fail rest
    else broadcastAttempts topic fail rest

/-- Model of one iteration of `ConnectionManager._metrics_loop` after the
sleep: compute `has_subscribers`; when it holds, query the system metrics
once (counted by the first component) and broadcast to the topic's
subscribers; otherwise skip all work.  The second component lists the
attempted sends of the cycle. -/
def metricsLoopIter (st : ConnectionManager) (fail : Nat → Bool) : Nat × List (Nat × Bool) :=
  let has_subscribers := st.subscriptions.any (fun e => METRICS_HOST ∈ e.2)
  if has_subscribers then (1, broadcastAttempts METRICS_HOST fail st.subscriptions)
  else (0, [])

end ConnectionManager

/-! Model of `backend/app/hproc/service.py`.  Wall-clock instants
(`time.time()`) and percentages are rationals; the OS process table and
the outcomes of the psutil calls are explicit oracle inputs. -/

/-- Process snapshot produced by `list_processes` for one process: the
psutil attribute dict after the enumeration loop filled in `cpu_percent`
and `memory_percent` (the expensive `cmdline` is left out of bulk
listings, so it is not part of the bulk snapshot model). -/
structure ProcInfo where
  pid : Int
  name : String
  username : Option String
  status : String
  num_threads : Nat
  cpu_percent : Rat
  memory_percent : Rat
deriving DecidableEq

/-- Cache slot as used by `_process_cache` and `_metrics_cache`: a dict
with fields `data`, `timestamp` and `ttl`. -/
structure CacheEntry (α : Type) where
  data : Option α
  timestamp : Rat
  ttl : Rat
deriving DecidableEq

/-- Model of `_get_cached_processes` (and of the inline metrics-cache
check): return the stored data iff it exists and `now - timestamp < ttl`. -/
def cache_get {α : Type} (c : CacheEntry α) (now : Rat) : Option α :=
  match c.data with
  | some d => if now - c.timestamp < c.ttl then some d else none
  | none => none

/-- Model of `list_processes`: serve the cached list when it is still
valid; otherwise enumerate the OS process table (`osEnum`, the snapshot
psutil would produce at `now`), store it with capture time `now`
(`_cache_processes`), and return it.  The boolean records whether the OS
was enumerated on this call. -/
def list_processes (now : Rat) (osEnum : List ProcInfo)
    (c : CacheEntry (List ProcInfo)) :
    List ProcInfo × CacheEntry (List ProcInfo) × Bool :=
  match cache_get c now with
  | some cached => (cached, c, false)
  | none => (osEnum, ⟨some osEnum, now, c.ttl⟩, true)

/-- Initial `_process_cache` dict: no data, TTL of 2 seconds. -/
def process_cache_init : CacheEntry (List ProcInfo) := ⟨none, 0, 2⟩

/-- Initial `_metrics_cache` dict: no data, TTL of 1 second. -/
def metrics_cache_ttl : Rat := 1

/-- Stable insertion step for the descending CPU sort: walk past every
earlier element whose key is strictly larger, and place `x` in front of
the first element whose key is less than or equal to its own, so equal
keys keep their original relative order. -/
def insDesc (x : ProcInfo) : List ProcInfo → List ProcInfo
  | [] => [x]
  | y :: ys =>
    if x.cpu_percent < y.cpu_percent then y :: insDesc x ys else x :: y :: ys

/-- Model of `sorted(procs, key=lambda x: x.get("cpu_percent", 0),
reverse=True)`: Python's sort is stable, and a stable sort is computed
uniquely by stable insertion sort. -/
def sortByCpuDesc : List ProcInfo → List ProcInfo
  | [] => []
  | x :: xs => insDesc x (sortByCpuDesc xs)

/-- Index-tagged copy of `insDesc` (the tag is the position in the
original OS enumeration); the comparison only reads the snapshot. -/
def insDescIdx (x : Nat × ProcInfo) : List (Nat × ProcInfo) → List (Nat × ProcInfo)
  | [] => [x]
  | y :: ys =>
    if x.2.cpu_percent < y.2.cpu_percent then y :: insDescIdx x ys else x :: y :: ys

/-- Index-tagged copy of `sortByCpuDesc`, used to state stability. -/
def sortByCpuDescIdx : List (Nat × ProcInfo) → List (Nat × ProcInfo)
  | [] => []
  | x :: xs => insDescIdx x (sortByCpuDescIdx xs)

/-- System snapshot returned by `get_system_metrics` (the `result` dict). -/
structure SystemMetrics where
  cpu_percent : Rat
  memory_percent : Rat
  top_processes : List ProcInfo
deriving DecidableEq

/-- Model of `get_system_metrics`: serve the cached snapshot when still
valid; otherwise read the aggregate CPU and memory gauges (`osCpu`,
`osMem`), take the process list through `list_processes` (so through its
own cache), rank it by CPU descending keeping the top 5, cache and return
the snapshot.  The boolean records whether a fresh snapshot was computed. -/
def get_system_metrics (now : Rat) (osCpu osMem : Rat) (osEnum : List ProcInfo)
    (pc : CacheEntry (List ProcInfo)) (mc : CacheEntry SystemMetrics) :
    SystemMetrics × CacheEntry (List ProcInfo) × CacheEntry SystemMetrics × Bool :=
  match cache_get mc now with
  | some m => (m, pc, mc, false)
  | none =>
    let r := list_processes now osEnum pc
    let top_by_cpu := (sortByCpuDesc r.1).take 5
    let result : SystemMetrics := ⟨osCpu, osMem, top_by_cpu⟩
    (result, r.2.1, ⟨some result, now, mc.ttl⟩, true)

/-- Critical PIDs that should never be terminated (`CRITICAL_PIDS = {0, 1}`). -/
def CRITICAL_PIDS : List Int := [0, 1]

/-- Critical process names that should be protected. -/
def CRITICAL_PROCESS_NAMES : List String :=
  ["init", "systemd", "launchd", "kernel", "kthreadd",
   "System", "csrss", "wininit", "services", "lsass",
   "smss", "svchost"]

/-- Model of Python's `str.lower()` on the process names involved: the
ASCII case mapping applied to every character, written by structural
recursion over the characters so that it evaluates on concrete names. -/
def pyLower (s : String) : String := ⟨s.data.map Char.toLower⟩

/-- Outcomes of the psutil calls made by `terminate_process`: a call
either returns or raises one of psutil's exception classes (each carrying
the text `str(e)` would produce). -/
inductive PsErr where
  | noSuchProcess
  | accessDenied
  | timeoutExpired (msg : String)
  | otherErr (msg : String)
deriving DecidableEq

instance {ε α : Type} [DecidableEq ε] [DecidableEq α] : DecidableEq (Except ε α)
  | .ok a, .ok b =>
    if h : a = b then .isTrue (by rw [h]) else .isFalse (by intro he; cases he; exact h rfl)
  | .ok _, .error _ => .isFalse (by intro h; cases h)
  | .error _, .ok _ => .isFalse (by intro h; cases h)
  | .error e, .error f =>
    if h : e = f then .isTrue (by rw [h]) else .isFalse (by intro he; cases he; exact h rfl)

/-- Oracle describing what the OS does for the target pid during one
`terminate_process` call: the outcome of `psutil.Process(pid)` plus
`proc.name()` (a resolved name, or a raise), and of `proc.terminate()`,
`proc.wait(timeout=3)`, `proc.kill()` and `proc.wait(timeout=2)` in turn
(`none` means the call returned; for a `wait`, that the process exited). -/
structure OsBehavior where
  lookupName : Except PsErr String
  terminateRes : Option PsErr
  wait3 : Option PsErr
  killRes : Option PsErr
  wait2 : Option PsErr
deriving DecidableEq

/-- OS-level interactions of `terminate_process`, in program order:
process lookup (with name resolution), the graceful signal, a bounded
wait of the given timeout, the forced-kill signal. -/
inductive OsCall where
  | lookup
  | sigTerm
  | wait (timeout : Nat)
  | sigKill
deriving DecidableEq

/-- Exception leaving the body of the outer `try` of `terminate_process`:
either a psutil error or the `TerminationDenied` raised for a critical
process name (which the outer `except Exception` clause also catches). -/
inductive PyExc where
  | ps (e : PsErr)
  | termDenied (msg : String)
deriving DecidableEq

/-- Result of `terminate_process` as seen by its caller: a returned
boolean, a raised `TerminationDenied` with its message, or an exception
of any other class escaping (the code never produces the last, which is
what claim C3 asserts). -/
inductive AppOutcome where
  | ok (b : Bool)
  | denied (msg : String)
  | uncaught (e : PyExc)
deriving DecidableEq

/-- Body of the outer `try` of `terminate_process` (lines 177-199 of
`service.py`): look the process up and resolve its name, deny critical
names, send the graceful signal, wait up to 3 seconds; only a
`TimeoutExpired` from that wait is caught by the inner handler, which
sends the kill signal and waits up to 2 more seconds.  Any exception
raised inside the inner handler — including a `TimeoutExpired` from the
second wait — leaves the body.  The trace lists the OS calls made. -/
def terminateTryBody (os : OsBehavior) : Except PyExc Bool × List OsCall :=
  match os.lookupName with
  | .error e => (.error (.ps e), [.lookup])
  | .ok proc_name =>
    if pyLower proc_name ∈ CRITICAL_PROCESS_NAMES.map pyLower then
      (.error (.termDenied ("Cannot terminate critical system process: " ++ proc_name)),
        [.lookup])
    else
      match os.terminateRes with
      | some e => (.error (.ps e), [.lookup, .sigTerm])
      | none =>
        match os.wait3 with
        | none => (.ok true, [.lookup, .sigTerm, .wait 3])
        | some (.timeoutExpired _) =>
          match os.killRes with
          | some e => (.error (.ps e), [.lookup, .sigTerm, .wait 3, .sigKill])
          | none =>
            match os.wait2 with
            | none => (.ok true, [.lookup, .sigTerm, .wait 3, .sigKill, .wait 2])
            | some e => (.error (.ps e), [.lookup, .sigTerm, .wait 3, .sigKill, .wait 2])
        | some e => (.error (.ps e), [.lookup, .sigTerm, .wait 3])

/-- Model of `terminate_process(pid, by_user)`: the three policy checks
(critical PID set, own pid, parent pid) run before any OS interaction;
then the try body runs and its exceptions are dispatched by the handlers
in order — `NoSuchProcess`, `AccessDenied`, then the catch-all `except
Exception` which wraps anything else (a second-wait timeout as well as
the critical-name `TerminationDenied`) into a new `TerminationDenied`
carrying the underlying error text.  The trace lists the OS calls made. -/
def terminate_process (pid selfPid parentPid : Int) (os : OsBehavior) :
    AppOutcome × List OsCall :=
  if pid ∈ CRITICAL_PIDS then
    (.denied ("Cannot terminate critical system process: PID " ++ toString pid), [])
  else if pid = selfPid then
    (.denied "Cannot terminate self process", [])
  else if pid = parentPid then
    (.denied "Cannot terminate parent process", [])
  else
    match terminateTryBody os with
    | (.ok b, tr) => (.ok b, tr)
    | (.error (.ps .noSuchProcess), tr) =>
      (.denied ("Process " ++ toString pid ++ " not found"), tr)
    | (.error (.ps .accessDenied), tr) =>
      (.denied ("Access denied to terminate process " ++ toString pid), tr)
    | (.error (.ps (.timeoutExpired m)), tr) =>
      (.denied ("Failed to terminate process: " ++ m), tr)
    | (.error (.ps (.otherErr m)), tr) =>
      (.denied ("Failed to terminate process: " ++ m), tr)
    | (.error (.termDenied m), tr) =>
      (.denied ("Failed to terminate process: " ++ m), tr)

/-! Model of the PID validation of `backend/app/hproc/routes.py`. -/

/-- HTTPException as raised by the routes: a status code and a detail. -/
structure HttpError where
  status : Nat
  detail : String
deriving DecidableEq

/-- Maximum PID value (typically 2^31-1 on most systems). -/
def MAX_PID_VALUE : Int := 2 ^ 31 - 1

/-- Model of `validate_pid`: reject negative pids and pids above
`MAX_PID_VALUE` with a 400 error, return the pid unchanged otherwise. -/
def validate_pid (pid : Int) : Except HttpError Int :=
  if pid < 0 then
    .error ⟨400, "PID must be a non-negative integer"⟩
  else if pid > MAX_PID_VALUE then
    .error ⟨400, "Invalid PID value"⟩
  else
    .ok pid

/-- Response of the terminate route: an HTTP error response, a
`TerminateResult` payload, or an exception escaping the handler (never
produced: the route catches `TerminationDenied`, the only failure
`terminate_process` raises). -/
inductive TermRouteRes where
  | httpErr (status : Nat) (detail : String)
  | result (pid : Int) (success : Bool)
  | escaped (e : PyExc)
deriving DecidableEq

/-- Model of the `POST /hproc/terminate/{pid}` handler: `validate_pid`
runs first and an invalid pid produces the 400 response with no OS call;
otherwise `terminate_process` runs and a `TerminationDenied` becomes a
403 response carrying the denial text. -/
def terminate_route (pid selfPid parentPid : Int) (os : OsBehavior) :
    TermRouteRes × List OsCall :=
  match validate_pid pid with
  | .error e => (.httpErr e.status e.detail, [])
  | .ok p =>
    match terminate_process p selfPid parentPid os with
    | (.ok b, tr) => (.result p b, tr)
    | (.denied m, tr) => (.httpErr 403 m, tr)
    | (.uncaught e, tr) => (.escaped e, tr)

/-! Claim theorems. -/

/-- Sample OS behavior used by witnesses: the lookup resolves to a
non-critical name and every signal and wait succeeds. -/
def osBehaviorSample : OsBehavior := ⟨.ok "python", none, none, none, none⟩

/-- OS behavior in which the target survives the graceful signal for the
whole 3-second wait, is sent the kill signal, and then also survives the
whole 2-second wait. -/
def osDoubleTimeout : OsBehavior :=
  ⟨.ok "python", none, some (.timeoutExpired "timeout after 3 seconds"), none,
    some (.timeoutExpired "timeout after 2 seconds")⟩

/-- Operations a client session performs on the `ConnectionManager`. -/
inductive WsOp where
  | connect (ws : Nat) (uid : String)
  | disconnect (ws : Nat) (uid : String)
  | subscribe (ws : Nat) (topic : String)
  | unsubscribe (ws : Nat) (topic : String)

/-- Interpretation of one operation on the manager state. -/
def applyOp (op : WsOp) (st : ConnectionManager) : ConnectionManager :=
  match op with
  | .connect ws uid => ConnectionManager.connect ws uid st
  | .disconnect ws uid => ConnectionManager.disconnect ws uid st
  | .subscribe ws topic => ConnectionManager.subscribe ws topic st
  | .unsubscribe ws topic => ConnectionManager.unsubscribe ws topic st

/-- Interpretation of a whole operation sequence, first operation first. -/
def applyOps (ops : List WsOp) (st : ConnectionManager) : ConnectionManager :=
  ops.foldl (fun s op => applyOp op s) st

/-- State of the manager as constructed in `ConnectionManager.__init__`:
both maps empty. -/
def initialManager : ConnectionManager := ⟨[], []⟩

/-- Order produced on index-tagged snapshots by Python's stable
descending sort: strictly larger CPU first, and original enumeration
position first among equal CPU values. -/
def StableRel (a b : Nat × ProcInfo) : Prop :=
  b.2.cpu_percent < a.2.cpu_percent ∨
    (a.2.cpu_percent = b.2.cpu_percent ∧ a.1 < b.1)

/-- Sample OS process table used by witnesses: three snapshots, the last
two tied on CPU. -/
def procsSample : List ProcInfo :=
  [⟨1, "a", none, "running", 1, 30, 5⟩,
   ⟨2, "b", none, "running", 1, 50, 5⟩,
   ⟨3, "c", none, "running", 1, 50, 5⟩]

/-! Supporting lemmas and claim theorems. -/

theorem dictGet_dictDel {κ α : Type} [DecidableEq κ] (key : κ) (l : List (κ × α)) :
    dictGet key (dictDel key l) = none := by
  induction l with
  | nil => rfl
  | cons e rest ih =>
    by_cases h : e.1 = key
    · simpa [dictDel, h] using ih
    · simpa [dictDel, dictGet, h] using ih

theorem dictDel_of_get_none {κ α : Type} [DecidableEq κ] (key : κ) (l : List (κ × α))
    (h : dictGet key l = none) : dictDel key l = l := by
  induction l with
  | nil => rfl
  | cons e rest ih =>
    by_cases he : e.1 = key
    · simp [dictGet, he] at h
    · simp [dictGet, he] at h
      simp [dictDel, he] at ih ⊢
      exact ih h

theorem dictGet_dictSet {κ α : Type} [DecidableEq κ] (key : κ) (v : α) (l : List (κ × α)) :
    dictGet key (dictSet key v l) = some v := by
  induction l with
  | nil => simp [dictSet, dictGet]
  | cons e rest ih =>
    by_cases h : e.1 = key
    · simp [dictSet, dictGet, h]
    · simpa [dictSet, dictGet, h] using ih

theorem dictSet_of_get_some {κ α : Type} [DecidableEq κ] (key : κ) (v : α) (l : List (κ × α))
    (h : dictGet key l = some v) : dictSet key v l = l := by
  induction l with
  | nil => simp [dictGet] at h
  | cons e rest ih =>
    by_cases he : e.1 = key
    · simp [dictGet, he] at h
      simp [dictSet, he, h]
      exact Prod.ext he.symm h.symm
    · simp [dictGet, he] at h
      simp [dictSet, he, ih h]

theorem dictSet_dictSet {κ α : Type} [DecidableEq κ] (key : κ) (v : α) (l : List (κ × α)) :
    dictSet key v (dictSet key v l) = dictSet key v l := by
  induction l with
  | nil => simp [dictSet]
  | cons e rest ih =>
    by_cases h : e.1 = key
    · simp [dictSet, h]
    · simp [dictSet, h, ih]

theorem mem_dictSet {κ α : Type} [DecidableEq κ] {key : κ} {v : α} {l : List (κ × α)}
    {p : κ × α} (hp : p ∈ dictSet key v l) : p = (key, v) ∨ p ∈ l := by
  induction l with
  | nil => simpa [dictSet] using hp
  | cons e rest ih =>
    by_cases h : e.1 = key
    · simp [dictSet, h] at hp
      rcases hp with hp | hp
      · exact Or.inl hp
      · exact Or.inr (List.mem_cons_of_mem _ hp)
    · simp [dictSet, h] at hp
      rcases hp with hp | hp
      · exact Or.inr (by simp [hp])
      · rcases ih hp with h' | h'
        · exact Or.inl h'
        · exact Or.inr (List.mem_cons_of_mem _ h')

/-- C1: for every pid in the critical PID set `{0, 1}`, and for pid equal
to the service's own process id or its parent process id,
`terminate_process` always raises `TerminationDenied` with the policy
reason of the first matching policy check, regardless of OS state, and
makes no OS call (in particular no process lookup). -/
theorem terminate_policy_denies_before_os_lookup
    (pid selfPid parentPid : Int) (os : OsBehavior)
    (h : pid ∈ CRITICAL_PIDS ∨ pid = selfPid ∨ pid = parentPid) :
    (terminate_process pid selfPid parentPid os).2 = [] ∧
    (terminate_process pid selfPid parentPid os).1 =
      .denied (if pid ∈ CRITICAL_PIDS then
          "Cannot terminate critical system process: PID " ++ toString pid
        else if pid = selfPid then "Cannot terminate self process"
        else "Cannot terminate parent process") := by
  by_cases h0 : pid ∈ CRITICAL_PIDS
  · simp [terminate_process, h0]
  · by_cases h1 : pid = selfPid
    · subst h1
      simp [terminate_process, h0]
    · have h2 : pid = parentPid := by
        rcases h with h | h | h
        · exact absurd h h0
        · exact absurd h h1
        · exact h
      subst h2
      simp [terminate_process, h0, h1]

theorem terminate_policy_denies_before_os_lookup_witness :
    ((0 : Int) ∈ CRITICAL_PIDS ∨ (0 : Int) = 10 ∨ (0 : Int) = 5) ∧
    ((terminate_process 0 10 5 osBehaviorSample).2 = [] ∧
      (terminate_process 0 10 5 osBehaviorSample).1 =
        .denied (if (0 : Int) ∈ CRITICAL_PIDS then
            "Cannot terminate critical system process: PID " ++ toString (0 : Int)
          else if (0 : Int) = 10 then "Cannot terminate self process"
          else "Cannot terminate parent process")) :=
  ⟨by decide,
    terminate_policy_denies_before_os_lookup 0 10 5 osBehaviorSample (by decide)⟩

/-- C6: in every iteration of the metrics broadcast loop in which no
registered connection has the host-metrics topic in its subscription
set, the loop makes no metrics/OS query and sends no message. -/
theorem metrics_loop_skips_without_subscribers
    (st : ConnectionManager) (fail : Nat → Bool)
    (h : ∀ e ∈ st.subscriptions, METRICS_HOST ∉ e.2) :
    ConnectionManager.metricsLoopIter st fail = (0, []) := by
  have hany : st.subscriptions.any (fun e => METRICS_HOST ∈ e.2) = false := by
    rw [List.any_eq_false]
    intro e he
    simpa using h e he
  simp [ConnectionManager.metricsLoopIter, hany]

theorem metrics_loop_skips_without_subscribers_witness :
    ConnectionManager.metricsLoopIter
      ⟨[("alice", [1])], [(1, ["vproc.events", "fs.events"])]⟩ (fun _ => false) = (0, []) :=
  metrics_loop_skips_without_subscribers
    ⟨[("alice", [1])], [(1, ["vproc.events", "fs.events"])]⟩ (fun _ => false) (by decide)

/-- C9: PID validation rejects every pid below 0 and every pid above
2^31 - 1 with a 400 error before any OS call is made (the terminate
route returns the 400 response with an empty OS-call trace), and returns
any pid in range unchanged. -/
theorem validate_pid_rejects_out_of_range
    (pid selfPid parentPid : Int) (os : OsBehavior) :
    (pid < 0 →
      validate_pid pid = .error ⟨400, "PID must be a non-negative integer"⟩ ∧
      terminate_route pid selfPid parentPid os =
        (.httpErr 400 "PID must be a non-negative integer", [])) ∧
    (pid > MAX_PID_VALUE →
      validate_pid pid = .error ⟨400, "Invalid PID value"⟩ ∧
      terminate_route pid selfPid parentPid os = (.httpErr 400 "Invalid PID value", [])) ∧
    (0 ≤ pid → pid ≤ MAX_PID_VALUE → validate_pid pid = .ok pid) ∧
    MAX_PID_VALUE = 2 ^ 31 - 1 := by
  refine ⟨fun h => ?_, fun h => ?_, fun h0 h1 => ?_, rfl⟩
  · exact ⟨by simp [validate_pid, h], by simp [terminate_route, validate_pid, h]⟩
  · have h0 : ¬ pid < 0 := by
      have : (0 : Int) ≤ MAX_PID_VALUE := by decide
      omega
    exact ⟨by simp [validate_pid, h0, h], by simp [terminate_route, validate_pid, h0, h]⟩
  · have hn : ¬ pid < 0 := not_lt.mpr h0
    have hm : ¬ pid > MAX_PID_VALUE := not_lt.mpr h1
    simp [validate_pid, hn, hm]

theorem validate_pid_rejects_out_of_range_witness :
    (validate_pid (-1) = .error ⟨400, "PID must be a non-negative integer"⟩ ∧
      terminate_route (-1) 10 5 osBehaviorSample =
        (.httpErr 400 "PID must be a non-negative integer", [])) ∧
    (validate_pid 2147483648 = .error ⟨400, "Invalid PID value"⟩ ∧
      terminate_route 2147483648 10 5 osBehaviorSample =
        (.httpErr 400 "Invalid PID value", [])) ∧
    validate_pid 100 = .ok 100 :=
  ⟨(validate_pid_rejects_out_of_range (-1) 10 5 osBehaviorSample).1 (by decide),
    (validate_pid_rejects_out_of_range 2147483648 10 5 osBehaviorSample).2.1 (by decide),
    (validate_pid_rejects_out_of_range 100 10 5 osBehaviorSample).2.2.1 (by decide) (by decide)⟩

/-- C2, counterexample: when the 3-second wait expires the kill signal is
sent, but when the 2-second wait after the kill also expires,
`terminate_process` does not return success: the `TimeoutExpired` raised
inside the inner `except` handler propagates to the outer `except
Exception` clause, which raises `TerminationDenied` wrapping the timeout
error's text. -/
theorem terminate_double_timeout_not_success :
    OsCall.sigKill ∈ (terminate_process 100 10 5 osDoubleTimeout).2 ∧
    (terminate_process 100 10 5 osDoubleTimeout).1 ≠ .ok true ∧
    (terminate_process 100 10 5 osDoubleTimeout).1 =
      .denied ("Failed to terminate process: timeout after 2 seconds") := by
  decide

/-- C2, amended: for every pid that passes all policy checks, if the
graceful-termination signal is sent and the 3-second wait expires, the
forced-kill signal is sent; if the 2-second wait after the kill
completes, `terminate_process` returns success, but if that wait also
expires, it raises `TerminationDenied` wrapping the timeout error's text
(the timed-out kill wait is a denial, not a success). -/
theorem terminate_forced_kill_wait_behavior
    (pid selfPid parentPid : Int) (os : OsBehavior) (name m3 : String)
    (h0 : pid ∉ CRITICAL_PIDS) (h1 : pid ≠ selfPid) (h2 : pid ≠ parentPid)
    (hname : os.lookupName = .ok name)
    (hcrit : pyLower name ∉ CRITICAL_PROCESS_NAMES.map pyLower)
    (hterm : os.terminateRes = none)
    (hw3 : os.wait3 = some (.timeoutExpired m3))
    (hkill : os.killRes = none) :
    OsCall.sigKill ∈ (terminate_process pid selfPid parentPid os).2 ∧
    (os.wait2 = none → (terminate_process pid selfPid parentPid os).1 = .ok true) ∧
    (∀ m, os.wait2 = some (.timeoutExpired m) →
      (terminate_process pid selfPid parentPid os).1 =
        .denied ("Failed to terminate process: " ++ m)) := by
  refine ⟨?_, ?_, ?_⟩
  · rcases hw2 : os.wait2 with _ | e
    · simp [terminate_process, terminateTryBody, h0, h1, h2, hname, hcrit, hterm, hw3,
        hkill, hw2]
    · rcases e <;>
        simp [terminate_process, terminateTryBody, h0, h1, h2, hname, hcrit, hterm, hw3,
          hkill, hw2]
  · intro hw2
    simp [terminate_process, terminateTryBody, h0, h1, h2, hname, hcrit, hterm, hw3,
      hkill, hw2]
  · intro m hw2
    simp [terminate_process, terminateTryBody, h0, h1, h2, hname, hcrit, hterm, hw3,
      hkill, hw2]

theorem terminate_forced_kill_wait_behavior_witness :
    OsCall.sigKill ∈ (terminate_process 100 10 5 osDoubleTimeout).2 ∧
    (osDoubleTimeout.wait2 = none → (terminate_process 100 10 5 osDoubleTimeout).1 = .ok true) ∧
    (∀ m, osDoubleTimeout.wait2 = some (.timeoutExpired m) →
      (terminate_process 100 10 5 osDoubleTimeout).1 =
        .denied ("Failed to terminate process: " ++ m)) :=
  terminate_forced_kill_wait_behavior 100 10 5 osDoubleTimeout "python"
    "timeout after 3 seconds" (by decide) (by decide) (by decide) (by decide) (by decide)
    (by decide) (by decide) (by decide)

/-- C3: `terminate_process` raises only `TerminationDenied` on every
failure path — no exception of another class escapes; a vanished target
is denied with the distinct not-found reason, an OS permission failure
with the distinct access-denied reason, and any other unexpected
OS-level failure is wrapped into a denial carrying the underlying
error's text. -/
theorem terminate_only_raises_termination_denied
    (pid selfPid parentPid : Int) (os : OsBehavior) :
    (∀ e, (terminate_process pid selfPid parentPid os).1 ≠ .uncaught e) ∧
    (pid ∉ CRITICAL_PIDS → pid ≠ selfPid → pid ≠ parentPid →
      (os.lookupName = .error .noSuchProcess →
        (terminate_process pid selfPid parentPid os).1 =
          .denied ("Process " ++ toString pid ++ " not found")) ∧
      (os.lookupName = .error .accessDenied →
        (terminate_process pid selfPid parentPid os).1 =
          .denied ("Access denied to terminate process " ++ toString pid)) ∧
      (∀ m, os.lookupName = .error (.otherErr m) →
        (terminate_process pid selfPid parentPid os).1 =
          .denied ("Failed to terminate process: " ++ m))) := by
  constructor
  · intro e
    by_cases h0 : pid ∈ CRITICAL_PIDS
    · simp [terminate_process, h0]
    by_cases h1 : pid = selfPid
    · subst h1
      simp [terminate_process, h0]
    by_cases h2 : pid = parentPid
    · subst h2
      simp [terminate_process, h0, h1]
    rcases hb : terminateTryBody os with ⟨exc | b, tr⟩
    · rcases exc with pe | m
      · rcases pe <;> simp [terminate_process, h0, h1, h2, hb]
      · simp [terminate_process, h0, h1, h2, hb]
    · simp [terminate_process, h0, h1, h2, hb]
  · intro h0 h1 h2
    refine ⟨fun hl => ?_, fun hl => ?_, fun m hl => ?_⟩ <;>
      simp [terminate_process, terminateTryBody, h0, h1, h2, hl]

theorem terminate_only_raises_termination_denied_witness :
    (∀ e, (terminate_process 100 10 5 ⟨.error .noSuchProcess, none, none, none, none⟩).1 ≠
      .uncaught e) ∧
    (terminate_process 100 10 5 ⟨.error .noSuchProcess, none, none, none, none⟩).1 =
      .denied ("Process " ++ toString (100 : Int) ++ " not found") :=
  ⟨(terminate_only_raises_termination_denied 100 10 5
      ⟨.error .noSuchProcess, none, none, none, none⟩).1,
    ((terminate_only_raises_termination_denied 100 10 5
      ⟨.error .noSuchProcess, none, none, none, none⟩).2
      (by decide) (by decide) (by decide)).1 rfl⟩

/-- After any `list_processes` call the cache slot holds exactly the
returned snapshot, and the slot's TTL is unchanged. -/
theorem list_processes_cache_data (now : Rat) (osEnum : List ProcInfo)
    (c : CacheEntry (List ProcInfo)) :
    (list_processes now osEnum c).2.1.data = some (list_processes now osEnum c).1 ∧
    (list_processes now osEnum c).2.1.ttl = c.ttl := by
  unfold list_processes
  rcases hd : cache_get c now with _ | d
  · simp
  · rcases hc : c.data with _ | d'
    · simp [cache_get, hc] at hd
    · unfold cache_get at hd
      rw [hc] at hd
      by_cases ht : now - c.timestamp < c.ttl
      · simp [ht] at hd
        simp [hd]
      · simp [ht] at hd

/-- C4: `list_processes` returns the cached list exactly when the time
since the cached capture is strictly below the 2-second TTL, with no OS
enumeration and no cache change in that case; a call with no cached data
or at or past the TTL re-enumerates the OS table and replaces the cache
with the fresh snapshot captured at the call time; consequently a second
call strictly within the TTL window of the first call's capture returns
the identical snapshot without enumerating. -/
theorem list_processes_cache_contract
    (now now2 : Rat) (osEnum osEnum2 : List ProcInfo)
    (c : CacheEntry (List ProcInfo)) (httl : c.ttl = 2) :
    (∀ d, c.data = some d → now - c.timestamp < 2 →
      list_processes now osEnum c = (d, c, false)) ∧
    (c.data = none ∨ 2 ≤ now - c.timestamp →
      list_processes now osEnum c = (osEnum, ⟨some osEnum, now, 2⟩, true)) ∧
    (now2 - (list_processes now osEnum c).2.1.timestamp < 2 →
      (list_processes now2 osEnum2 (list_processes now osEnum c).2.1).1 =
        (list_processes now osEnum c).1 ∧
      (list_processes now2 osEnum2 (list_processes now osEnum c).2.1).2.2 = false) := by
  refine ⟨fun d hd ht => ?_, fun h => ?_, fun ht => ?_⟩
  · simp [list_processes, cache_get, hd, httl, ht]
  · rcases h with h | h
    · simp [list_processes, cache_get, h, httl]
    · have ht : ¬ now - c.timestamp < 2 := not_lt.mpr h
      rcases hc : c.data with _ | d
      · simp [list_processes, cache_get, hc, httl]
      · simp [list_processes, cache_get, hc, ht, httl]
  · obtain ⟨hdata, httl'⟩ := list_processes_cache_data now osEnum c
    rw [httl] at httl'
    set r := list_processes now osEnum c with hr
    have hget : cache_get r.2.1 now2 = some r.1 := by
      unfold cache_get
      rw [hdata, httl']
      simp [ht]
    constructor
    · simp [list_processes, hget]
    · simp [list_processes, hget]

theorem list_processes_cache_contract_witness :
    (list_processes 1 [] ⟨some [], 0, 2⟩ = ([], ⟨some [], 0, 2⟩, false)) ∧
    (list_processes 0 [] process_cache_init = ([], ⟨some [], 0, 2⟩, true)) ∧
    ((list_processes 1 [] (list_processes 0 [] process_cache_init).2.1).1 =
        (list_processes 0 [] process_cache_init).1 ∧
      (list_processes 1 [] (list_processes 0 [] process_cache_init).2.1).2.2 = false) :=
  ⟨(list_processes_cache_contract 1 1 [] [] ⟨some [], 0, 2⟩ rfl).1 [] rfl (by norm_num),
    (list_processes_cache_contract 0 0 [] [] process_cache_init rfl).2.1 (Or.inl rfl),
    (list_processes_cache_contract 0 1 [] [] process_cache_init rfl).2.2
      (by simp [list_processes, cache_get, process_cache_init])⟩

theorem dictGet_eq_none_iff {κ α : Type} [DecidableEq κ] (key : κ) (l : List (κ × α)) :
    dictGet key l = none ↔ key ∉ l.map Prod.fst := by
  induction l with
  | nil => simp [dictGet]
  | cons e rest ih =>
    by_cases h : e.1 = key
    · simp [dictGet, h]
    · simp only [dictGet, if_neg h, List.map_cons, List.mem_cons]
      rw [ih]
      constructor
      · rintro hn (hk | hk)
        · exact h hk.symm
        · exact hn hk
      · exact fun hn hk => hn (Or.inr hk)

theorem dictSet_entry_unique {κ α : Type} [DecidableEq κ] {key : κ} {v : α}
    {l : List (κ × α)} (hc : List.count key (l.map Prod.fst) ≤ 1)
    {p : κ × α} (hp : p ∈ dictSet key v l) (hk : p.1 = key) : p.2 = v := by
  induction l with
  | nil =>
    simp [dictSet] at hp
    simp [hp]
  | cons e rest ih =>
    by_cases h : e.1 = key
    · simp [dictSet, h] at hp
      rcases hp with hp | hp
      · simp [hp]
      · exfalso
        have h1 : key ∈ rest.map Prod.fst := List.mem_map.mpr ⟨p, hp, hk⟩
        have h2 : 1 ≤ List.count key (rest.map Prod.fst) := List.one_le_count_iff.mpr h1
        simp [List.count_cons, h] at hc
        omega
    · simp [dictSet, h] at hp
      rcases hp with hp | hp
      · exact absurd (hp ▸ hk) h
      · have hc' : List.count key (rest.map Prod.fst) ≤ 1 := by
          simp [List.count_cons] at hc
          omega
        exact ih hc' hp

theorem broadcastAttempts_map_fst (topic : String) (fail : Nat → Bool)
    (l : List (Nat × List String)) :
    (ConnectionManager.broadcastAttempts topic fail l).map Prod.fst =
      (l.filter (fun e => topic ∈ e.2)).map Prod.fst := by
  induction l with
  | nil => rfl
  | cons e rest ih =>
    rcases e with ⟨ws, tps⟩
    by_cases h : topic ∈ tps
    · simp [ConnectionManager.broadcastAttempts, h, List.filter_cons, ih]
    · simp [ConnectionManager.broadcastAttempts, h, List.filter_cons, ih]

theorem mem_broadcastAttempts_of_subscribed (topic : String) (fail : Nat → Bool)
    {l : List (Nat × List String)} {e : Nat × List String}
    (he : e ∈ l) (ht : topic ∈ e.2) :
    (e.1, !fail e.1) ∈ ConnectionManager.broadcastAttempts topic fail l := by
  induction l with
  | nil => cases he
  | cons x rest ih =>
    rcases x with ⟨ws, tps⟩
    rcases List.mem_cons.mp he with he' | he'
    · subst he'
      simp [ConnectionManager.broadcastAttempts, ht]
    · by_cases h : topic ∈ tps
      · simp only [ConnectionManager.broadcastAttempts, if_pos h]
        exact List.mem_cons_of_mem _ (ih he')
      · simpa only [ConnectionManager.broadcastAttempts, if_neg h] using ih he'

/-- C7: every `broadcast_to_topic` call attempts delivery to exactly the
connections currently subscribed to the topic, whatever the send
failures are (the attempted-send list does not depend on `fail`, so one
subscriber's failing send does not prevent delivery to the rest), each
still-subscribed connection whose send does not fail receives the
message, and a connection that has unsubscribed from the topic (while
registered at most once) receives no subsequent broadcast to it. -/
theorem broadcast_to_topic_delivery
    (st : ConnectionManager) (topic : String) (ws : Nat) (fail : Nat → Bool) :
    ((ConnectionManager.broadcastAttempts topic fail st.subscriptions).map Prod.fst =
      (st.subscriptions.filter (fun e => topic ∈ e.2)).map Prod.fst) ∧
    (∀ e ∈ st.subscriptions, topic ∈ e.2 → fail e.1 = false →
      (e.1, true) ∈ ConnectionManager.broadcastAttempts topic fail st.subscriptions) ∧
    (List.count ws (st.subscriptions.map Prod.fst) ≤ 1 →
      ws ∉ (ConnectionManager.broadcastAttempts topic fail
        (ConnectionManager.unsubscribe ws topic st).subscriptions).map Prod.fst) := by
  refine ⟨broadcastAttempts_map_fst topic fail st.subscriptions, fun e he ht hf => ?_,
    fun hc hmem => ?_⟩
  · have := mem_broadcastAttempts_of_subscribed topic fail he ht
    rwa [hf] at this
  · rcases hget : dictGet ws st.subscriptions with _ | tps
    · rw [ConnectionManager.unsubscribe, hget] at hmem
      rw [broadcastAttempts_map_fst] at hmem
      obtain ⟨e, hef, hfst⟩ := List.mem_map.mp hmem
      have hesubs := (List.mem_filter.mp hef).1
      exact (dictGet_eq_none_iff ws st.subscriptions).mp hget
        (List.mem_map.mpr ⟨e, hesubs, hfst⟩)
    · rw [ConnectionManager.unsubscribe, hget] at hmem
      simp only at hmem
      rw [broadcastAttempts_map_fst] at hmem
      obtain ⟨e, hef, hfst⟩ := List.mem_map.mp hmem
      obtain ⟨hesubs, hetopic⟩ := List.mem_filter.mp hef
      have hval : e.2 = tps.filter (fun t => t ≠ topic) :=
        dictSet_entry_unique hc hesubs hfst
      rw [hval] at hetopic
      simp at hetopic

theorem broadcast_to_topic_delivery_witness :
    ((ConnectionManager.broadcastAttempts "metrics.host" (fun n => n == 1)
        (⟨[], [(1, ["metrics.host"]), (2, ["metrics.host"])]⟩ :
          ConnectionManager).subscriptions).map Prod.fst =
      ((⟨[], [(1, ["metrics.host"]), (2, ["metrics.host"])]⟩ :
          ConnectionManager).subscriptions.filter
        (fun e => "metrics.host" ∈ e.2)).map Prod.fst) ∧
    ((2, true) ∈ ConnectionManager.broadcastAttempts "metrics.host" (fun n => n == 1)
      (⟨[], [(1, ["metrics.host"]), (2, ["metrics.host"])]⟩ :
        ConnectionManager).subscriptions) ∧
    (2 ∉ (ConnectionManager.broadcastAttempts "metrics.host" (fun n => n == 1)
      (ConnectionManager.unsubscribe 2 "metrics.host"
        ⟨[], [(1, ["metrics.host"]), (2, ["metrics.host"])]⟩).subscriptions).map Prod.fst) :=
  ⟨(broadcast_to_topic_delivery ⟨[], [(1, ["metrics.host"]), (2, ["metrics.host"])]⟩
      "metrics.host" 2 (fun n => n == 1)).1,
    (broadcast_to_topic_delivery ⟨[], [(1, ["metrics.host"]), (2, ["metrics.host"])]⟩
      "metrics.host" 2 (fun n => n == 1)).2.1 (2, ["metrics.host"]) (by decide) (by decide)
      (by decide),
    (broadcast_to_topic_delivery ⟨[], [(1, ["metrics.host"]), (2, ["metrics.host"])]⟩
      "metrics.host" 2 (fun n => n == 1)).2.2 (by decide)⟩

theorem disconnectActive_of_get_none {ws : Nat} {uid : String}
    {ac : List (String × List Nat)} (h : dictGet uid ac = none) :
    ConnectionManager.disconnectActive ws uid ac = ac := by
  unfold ConnectionManager.disconnectActive
  rw [h]

theorem disconnectSubs_idem (ws : Nat) (subs : List (Nat × List String)) :
    ConnectionManager.disconnectSubs ws (ConnectionManager.disconnectSubs ws subs) =
      ConnectionManager.disconnectSubs ws subs := by
  rcases hget : dictGet ws subs with _ | tps
  · simp [ConnectionManager.disconnectSubs, hget]
  · have h1 : ConnectionManager.disconnectSubs ws subs = dictDel ws subs := by
      simp [ConnectionManager.disconnectSubs, hget]
    rw [h1]
    simp [ConnectionManager.disconnectSubs, dictGet_dictDel]

theorem disconnectActive_idem (ws : Nat) (uid : String) (ac : List (String × List Nat))
    (hc : List.count ws ((dictGet uid ac).getD []) ≤ 1) :
    ConnectionManager.disconnectActive ws uid (ConnectionManager.disconnectActive ws uid ac) =
      ConnectionManager.disconnectActive ws uid ac := by
  rcases hget : dictGet uid ac with _ | lst
  · simp only [disconnectActive_of_get_none hget]
  · have hc' : List.count ws lst ≤ 1 := by rw [hget] at hc; simpa using hc
    by_cases hmem : ws ∈ lst
    · by_cases hnil : lst.erase ws = []
      · have h1 : ConnectionManager.disconnectActive ws uid ac = dictDel uid ac := by
          simp [ConnectionManager.disconnectActive, hget, hmem, hnil]
        rw [h1, disconnectActive_of_get_none (dictGet_dictDel uid ac)]
      · have h1 : ConnectionManager.disconnectActive ws uid ac =
            dictSet uid (lst.erase ws) ac := by
          simp [ConnectionManager.disconnectActive, hget, hmem, hnil]
        have hws : ws ∉ lst.erase ws := by
          rw [← List.count_eq_zero, List.count_erase_self]
          omega
        rw [h1]
        simp [ConnectionManager.disconnectActive, dictGet_dictSet, hws, hnil,
          dictSet_dictSet]
    · by_cases hnil : lst = []
      · have h1 : ConnectionManager.disconnectActive ws uid ac = dictDel uid ac := by
          simp [ConnectionManager.disconnectActive, hget, hmem, hnil]
        rw [h1, disconnectActive_of_get_none (dictGet_dictDel uid ac)]
      · have h1 : ConnectionManager.disconnectActive ws uid ac = ac := by
          simp [ConnectionManager.disconnectActive, hget, hmem, hnil,
            dictSet_of_get_some uid lst ac hget]
        simp only [h1]

/-- C8: `disconnect` removes the handle's entire subscription set; a
second `disconnect` of the same handle (registered at most once under
the user) is a no-op on the state; `subscribe` and `unsubscribe` on a
handle unknown to the registry are no-ops that change no state. -/
theorem disconnect_idempotent_and_clears_subscriptions
    (st : ConnectionManager) (ws : Nat) (uid topic : String) :
    dictGet ws (ConnectionManager.disconnect ws uid st).subscriptions = none ∧
    (List.count ws ((dictGet uid st.active_connections).getD []) ≤ 1 →
      ConnectionManager.disconnect ws uid (ConnectionManager.disconnect ws uid st) =
        ConnectionManager.disconnect ws uid st) ∧
    (dictGet ws st.subscriptions = none →
      ConnectionManager.subscribe ws topic st = st ∧
      ConnectionManager.unsubscribe ws topic st = st) := by
  refine ⟨?_, fun hc => ?_, fun hget => ?_⟩
  · rcases hget : dictGet ws st.subscriptions with _ | tps
    · simp [ConnectionManager.disconnect, ConnectionManager.disconnectSubs, hget]
    · simp [ConnectionManager.disconnect, ConnectionManager.disconnectSubs, hget,
        dictGet_dictDel]
  · simp only [ConnectionManager.disconnect]
    rw [disconnectActive_idem ws uid st.active_connections hc, disconnectSubs_idem]
  · exact ⟨by simp [ConnectionManager.subscribe, hget],
      by simp [ConnectionManager.unsubscribe, hget]⟩

theorem disconnect_idempotent_and_clears_subscriptions_witness :
    dictGet 1 (ConnectionManager.disconnect 1 "u"
      ⟨[("u", [1, 2])], [(2, ["metrics.host"])]⟩).subscriptions = none ∧
    ConnectionManager.disconnect 1 "u"
        (ConnectionManager.disconnect 1 "u" ⟨[("u", [1, 2])], [(2, ["metrics.host"])]⟩) =
      ConnectionManager.disconnect 1 "u" ⟨[("u", [1, 2])], [(2, ["metrics.host"])]⟩ ∧
    (ConnectionManager.subscribe 1 "fs.events" ⟨[("u", [1, 2])], [(2, ["metrics.host"])]⟩ =
        ⟨[("u", [1, 2])], [(2, ["metrics.host"])]⟩ ∧
      ConnectionManager.unsubscribe 1 "fs.events" ⟨[("u", [1, 2])], [(2, ["metrics.host"])]⟩ =
        ⟨[("u", [1, 2])], [(2, ["metrics.host"])]⟩) :=
  ⟨(disconnect_idempotent_and_clears_subscriptions
      ⟨[("u", [1, 2])], [(2, ["metrics.host"])]⟩ 1 "u" "fs.events").1,
    (disconnect_idempotent_and_clears_subscriptions
      ⟨[("u", [1, 2])], [(2, ["metrics.host"])]⟩ 1 "u" "fs.events").2.1 (by decide),
    (disconnect_idempotent_and_clears_subscriptions
      ⟨[("u", [1, 2])], [(2, ["metrics.host"])]⟩ 1 "u" "fs.events").2.2 (by decide)⟩

theorem applyOp_preserves_active_nonempty {st : ConnectionManager} (op : WsOp)
    (h : ∀ p ∈ st.active_connections, p.2 ≠ []) :
    ∀ p ∈ (applyOp op st).active_connections, p.2 ≠ [] := by
  rcases op with ⟨ws, uid⟩ | ⟨ws, uid⟩ | ⟨ws, topic⟩ | ⟨ws, topic⟩
  · intro p hp
    rcases mem_dictSet hp with hp' | hp'
    · subst hp'
      simp
    · exact h p hp'
  · intro p hp
    simp only [applyOp, ConnectionManager.disconnect] at hp
    unfold ConnectionManager.disconnectActive at hp
    rcases hget : dictGet uid st.active_connections with _ | lst
    · rw [hget] at hp
      exact h p hp
    · rw [hget] at hp
      simp only at hp
      by_cases hnil : (if ws ∈ lst then lst.erase ws else lst) = []
      · rw [if_pos hnil] at hp
        exact h p ((List.mem_filter.mp hp).1)
      · rw [if_neg hnil] at hp
        rcases mem_dictSet hp with hp' | hp'
        · subst hp'
          exact hnil
        · exact h p hp'
  · intro p hp
    have hac : (ConnectionManager.subscribe ws topic st).active_connections =
        st.active_connections := by
      unfold ConnectionManager.subscribe
      cases dictGet ws st.subscriptions <;> rfl
    have hp' : p ∈ (ConnectionManager.subscribe ws topic st).active_connections := hp
    rw [hac] at hp'
    exact h p hp'
  · intro p hp
    have hac : (ConnectionManager.unsubscribe ws topic st).active_connections =
        st.active_connections := by
      unfold ConnectionManager.unsubscribe
      cases dictGet ws st.subscriptions <;> rfl
    have hp' : p ∈ (ConnectionManager.unsubscribe ws topic st).active_connections := hp
    rw [hac] at hp'
    exact h p hp'

theorem applyOps_preserves_active_nonempty (ops : List WsOp) (st : ConnectionManager)
    (h : ∀ p ∈ st.active_connections, p.2 ≠ []) :
    ∀ p ∈ (applyOps ops st).active_connections, p.2 ≠ [] := by
  induction ops generalizing st with
  | nil => exact h
  | cons op rest ih => exact ih (applyOp op st) (applyOp_preserves_active_nonempty op h)

/-- C10: after any sequence of manager operations starting from the
freshly constructed manager, the per-user connection map never maps a
user id to an empty list: `connect` stores a list extended with the new
connection and `disconnect` deletes the user's key when its last
connection is removed. -/
theorem active_connections_never_empty (ops : List WsOp) :
    ∀ p ∈ (applyOps ops initialManager).active_connections, p.2 ≠ [] :=
  applyOps_preserves_active_nonempty ops initialManager (by simp [initialManager])

theorem active_connections_never_empty_witness :
    ("u", [2]) ∈ (applyOps [WsOp.connect 1 "u", WsOp.connect 2 "u", WsOp.disconnect 1 "u"]
      initialManager).active_connections ∧ ("u", ([2] : List Nat)).2 ≠ [] :=
  ⟨by decide,
    active_connections_never_empty [WsOp.connect 1 "u", WsOp.connect 2 "u",
      WsOp.disconnect 1 "u"] ("u", [2]) (by decide)⟩

theorem insDesc_perm (x : ProcInfo) (l : List ProcInfo) :
    List.Perm (insDesc x l) (x :: l) := by
  induction l with
  | nil => rfl
  | cons y ys ih =>
    by_cases h : x.cpu_percent < y.cpu_percent
    · rw [insDesc, if_pos h]
      exact (ih.cons y).trans (List.Perm.swap x y ys)
    · rw [insDesc, if_neg h]

theorem sortByCpuDesc_perm (l : List ProcInfo) : List.Perm (sortByCpuDesc l) l := by
  induction l with
  | nil => rfl
  | cons x xs ih => exact (insDesc_perm x (sortByCpuDesc xs)).trans (ih.cons x)

theorem insDescIdx_perm (x : Nat × ProcInfo) (l : List (Nat × ProcInfo)) :
    List.Perm (insDescIdx x l) (x :: l) := by
  induction l with
  | nil => rfl
  | cons y ys ih =>
    by_cases h : x.2.cpu_percent < y.2.cpu_percent
    · rw [insDescIdx, if_pos h]
      exact (ih.cons y).trans (List.Perm.swap x y ys)
    · rw [insDescIdx, if_neg h]

theorem sortByCpuDescIdx_perm (l : List (Nat × ProcInfo)) :
    List.Perm (sortByCpuDescIdx l) l := by
  induction l with
  | nil => rfl
  | cons x xs ih => exact (insDescIdx_perm x (sortByCpuDescIdx xs)).trans (ih.cons x)

theorem insDescIdx_map_snd (x : Nat × ProcInfo) (l : List (Nat × ProcInfo)) :
    (insDescIdx x l).map Prod.snd = insDesc x.2 (l.map Prod.snd) := by
  induction l with
  | nil => rfl
  | cons y ys ih =>
    by_cases h : x.2.cpu_percent < y.2.cpu_percent
    · simp [insDescIdx, insDesc, h, ih]
    · simp [insDescIdx, insDesc, h]

theorem sortByCpuDescIdx_map_snd (l : List (Nat × ProcInfo)) :
    (sortByCpuDescIdx l).map Prod.snd = sortByCpuDesc (l.map Prod.snd) := by
  induction l with
  | nil => rfl
  | cons x xs ih =>
    rw [sortByCpuDescIdx, insDescIdx_map_snd, ih, List.map_cons, sortByCpuDesc]

theorem pairwise_insDescIdx (x : Nat × ProcInfo) (l : List (Nat × ProcInfo))
    (hl : l.Pairwise StableRel) (hidx : ∀ y ∈ l, x.1 < y.1) :
    (insDescIdx x l).Pairwise StableRel := by
  induction l with
  | nil => simp [insDescIdx]
  | cons y ys ih =>
    obtain ⟨hy, hys⟩ := List.pairwise_cons.mp hl
    by_cases h : x.2.cpu_percent < y.2.cpu_percent
    · rw [insDescIdx, if_pos h]
      refine List.pairwise_cons.mpr
        ⟨?_, ih hys fun z hz => hidx z (List.mem_cons_of_mem _ hz)⟩
      intro z hz
      rcases List.mem_cons.mp ((insDescIdx_perm x ys).mem_iff.mp hz) with hz' | hz'
      · subst hz'
        exact Or.inl h
      · exact hy z hz'
    · rw [insDescIdx, if_neg h]
      push_neg at h
      refine List.pairwise_cons.mpr ⟨?_, hl⟩
      intro z hz
      rcases List.mem_cons.mp hz with hz' | hz'
      · subst hz'
        rcases lt_or_eq_of_le h with hlt | heq
        · exact Or.inl hlt
        · exact Or.inr ⟨heq.symm, hidx z (List.mem_cons_self z ys)⟩
      · rcases hy z hz' with hlt | ⟨heq, _⟩
        · exact Or.inl (lt_of_lt_of_le hlt h)
        · rcases lt_or_eq_of_le h with hlt | heq'
          · exact Or.inl (heq ▸ hlt)
          · exact Or.inr ⟨by rw [← heq', heq], hidx z (List.mem_cons_of_mem _ hz')⟩

theorem pairwise_sortByCpuDescIdx (l : List (Nat × ProcInfo))
    (hidx : l.Pairwise (fun a b => a.1 < b.1)) :
    (sortByCpuDescIdx l).Pairwise StableRel := by
  induction l with
  | nil => exact List.Pairwise.nil
  | cons x xs ih =>
    obtain ⟨hx, hxs⟩ := List.pairwise_cons.mp hidx
    refine pairwise_insDescIdx x (sortByCpuDescIdx xs) (ih hxs) ?_
    intro y hy
    exact hx y ((sortByCpuDescIdx_perm xs).mem_iff.mp hy)

theorem enumFrom_map_snd_procs (n : Nat) (l : List ProcInfo) :
    (List.enumFrom n l).map Prod.snd = l := by
  induction l generalizing n with
  | nil => rfl
  | cons x xs ih => simp [List.enumFrom, ih]

theorem le_fst_of_mem_enumFrom_procs {n : Nat} {l : List ProcInfo} :
    ∀ p ∈ List.enumFrom n l, n ≤ p.1 := by
  induction l generalizing n with
  | nil => intro p hp; cases hp
  | cons x xs ih =>
    intro p hp
    rcases List.mem_cons.mp hp with hp' | hp'
    · subst hp'
      exact le_refl n
    · exact Nat.le_of_succ_le (ih p hp')

theorem pairwise_enumFrom_procs (n : Nat) (l : List ProcInfo) :
    (List.enumFrom n l).Pairwise (fun a b => a.1 < b.1) := by
  induction l generalizing n with
  | nil => exact List.Pairwise.nil
  | cons x xs ih =>
    refine List.pairwise_cons.mpr ⟨?_, ih (n + 1)⟩
    intro y hy
    exact Nat.lt_of_succ_le (le_fst_of_mem_enumFrom_procs y hy)

/-- C5: whenever `get_system_metrics` computes a fresh snapshot (metrics
cache miss), its `top_processes` field has length at most 5, is sorted
by `cpu_percent` in descending order, is a subset of the process list
obtained from `list_processes` in the same call, and equals the 5-prefix
of the stable descending sort of that list, whose index-tagged form
breaks CPU ties by the original OS enumeration order. -/
theorem get_system_metrics_top_processes
    (now osCpu osMem : Rat) (osEnum : List ProcInfo)
    (pc : CacheEntry (List ProcInfo)) (mc : CacheEntry SystemMetrics)
    (hmiss : cache_get mc now = none) :
    (get_system_metrics now osCpu osMem osEnum pc mc).1.top_processes.length ≤ 5 ∧
    (get_system_metrics now osCpu osMem osEnum pc mc).1.top_processes.Pairwise
      (fun a b => b.cpu_percent ≤ a.cpu_percent) ∧
    (∀ p ∈ (get_system_metrics now osCpu osMem osEnum pc mc).1.top_processes,
      p ∈ (list_processes now osEnum pc).1) ∧
    (get_system_metrics now osCpu osMem osEnum pc mc).1.top_processes =
      ((sortByCpuDescIdx (List.enumFrom 0 (list_processes now osEnum pc).1)).map
        Prod.snd).take 5 ∧
    (sortByCpuDescIdx (List.enumFrom 0 (list_processes now osEnum pc).1)).Pairwise
      StableRel := by
  have htop : (get_system_metrics now osCpu osMem osEnum pc mc).1.top_processes =
      (sortByCpuDesc (list_processes now osEnum pc).1).take 5 := by
    simp [get_system_metrics, hmiss]
  have hsortedIdx :=
    pairwise_sortByCpuDescIdx (List.enumFrom 0 (list_processes now osEnum pc).1)
      (pairwise_enumFrom_procs 0 _)
  have hmapeq :
      (sortByCpuDescIdx (List.enumFrom 0 (list_processes now osEnum pc).1)).map Prod.snd =
        sortByCpuDesc (list_processes now osEnum pc).1 := by
    rw [sortByCpuDescIdx_map_snd, enumFrom_map_snd_procs]
  have hsorted : (sortByCpuDesc (list_processes now osEnum pc).1).Pairwise
      (fun a b => b.cpu_percent ≤ a.cpu_percent) := by
    rw [← hmapeq]
    refine List.Pairwise.map Prod.snd ?_ hsortedIdx
    intro a b hab
    rcases hab with h | ⟨h, _⟩
    · exact le_of_lt h
    · exact le_of_eq h.symm
  refine ⟨?_, ?_, ?_, ?_, hsortedIdx⟩
  · rw [htop, List.length_take]
    exact Nat.min_le_left _ _
  · rw [htop]
    exact List.Pairwise.sublist (List.take_sublist 5 _) hsorted
  · intro p hp
    rw [htop] at hp
    exact (sortByCpuDesc_perm _).mem_iff.mp (List.take_subset _ _ hp)
  · rw [htop, hmapeq]

theorem get_system_metrics_top_processes_witness :
    (get_system_metrics 0 10 20 procsSample ⟨none, 0, 2⟩ ⟨none, 0, 1⟩).1.top_processes.length
      ≤ 5 ∧
    (get_system_metrics 0 10 20 procsSample ⟨none, 0, 2⟩ ⟨none, 0, 1⟩).1.top_processes.Pairwise
      (fun a b => b.cpu_percent ≤ a.cpu_percent) ∧
    (∀ p ∈ (get_system_metrics 0 10 20 procsSample ⟨none, 0, 2⟩ ⟨none, 0, 1⟩).1.top_processes,
      p ∈ (list_processes 0 procsSample ⟨none, 0, 2⟩).1) ∧
    (get_system_metrics 0 10 20 procsSample ⟨none, 0, 2⟩ ⟨none, 0, 1⟩).1.top_processes =
      ((sortByCpuDescIdx (List.enumFrom 0 (list_processes 0 procsSample ⟨none, 0, 2⟩).1)).map
        Prod.snd).take 5 ∧
    (sortByCpuDescIdx (List.enumFrom 0 (list_processes 0 procsSample ⟨none, 0, 2⟩).1)).Pairwise
      StableRel :=
  get_system_metrics_top_processes 0 10 20 procsSample ⟨none, 0, 2⟩ ⟨none, 0, 1⟩ rfl
